import Mathlib

/-!
Shallow embedding of the space-combat prototype `src/main.py`
("Jovian Front: Echoes of War").

Modelling conventions:
* Python floats are modelled as exact rationals (`ℚ`).
* The transcendental helpers `math.cos`, `math.sin`, `math.atan2` and
  `math.hypot` (all in degree form as the source uses them) are passed in as
  function parameters `cosd sind : ℚ → ℚ`, `atan2d hypotQ : ℚ → ℚ → ℚ`;
  theorems that depend on their analytic properties state those properties as
  hypotheses at the points where they are used.
* `math.hypot` keys used only for an argmin comparison (nearest-target
  selection) are replaced by squared-distance keys: `sqrt` is strictly
  monotone on nonnegatives, so both keys induce the same order and the same
  ties, hence the same `min`.
* Python `int()` truncates toward zero; `pyInt` below does the same.
* pygame rects are integer boxes; a sprite's rect center always equals
  `(int(x), int(y))` in this program (it is re-synchronised on every update
  and at construction), so rects are represented by their width/height plus
  the float position they are derived from.
* `sprite.kill()` removes a sprite from all groups; groups are lists of
  values, and an update returns the updated sprite together with a Bool
  saying whether it is still alive.
-/

/-- Python `int()` on a rational: truncation toward zero
(`Int.tdiv` of numerator by denominator is exactly T-division). -/
def pyInt (q : ℚ) : ℤ := Int.tdiv q.num (q.den : ℤ)

/-- Python float `%` is floored modulo: `a - b * floor (a / b)`. -/
def qmod (a b : ℚ) : ℚ := a - b * ((Rat.floor (a / b) : ℤ) : ℚ)

-- configuration ---------------------------------------------------------------

def WIDTH : ℤ := 800
def HEIGHT : ℤ := 600

abbrev Color := ℕ × ℕ × ℕ

def WHITE : Color := (255, 255, 255)
def RED : Color := (255, 0, 0)
def GREEN : Color := (0, 255, 0)
def BLUE : Color := (0, 128, 255)
def YELLOW : Color := (255, 255, 0)
def ORANGE : Color := (255, 165, 0)

def PLAYER_SIZE : ℤ := 26
def PLAYER_THRUST : ℚ := 9/20
def PLAYER_MAX_HEAT : ℚ := 100
def PLAYER_COOL_RATE : ℚ := 9/50
def PLAYER_MAX_HP : ℚ := 150

/-- A weapon spec dict.  `accel` and `lifetime` are only present for the
missile spec, hence `Option`. -/
structure WeaponSpec where
  speed : ℚ
  damage : ℚ
  heat : ℚ
  cooldown : ℚ
  color : Color
  size : ℤ
  accel : Option ℚ := none
  lifetime : Option ℚ := none
  deriving DecidableEq

def LASER : WeaponSpec :=
  { speed := 11, damage := 12, heat := 5, cooldown := 1/4, color := YELLOW, size := 4 }

def RAIL : WeaponSpec :=
  { speed := 15, damage := 30, heat := 15, cooldown := 1, color := ORANGE, size := 5 }

def MISS : WeaponSpec :=
  { speed := 5, damage := 60, heat := 22, cooldown := 2, color := RED, size := 8,
    accel := some (3/25), lifetime := some 150 }

def POINT_DEF_RANGE : ℚ := 50
def POINT_DEF_COOLDOWN : ℚ := 3/25
def POINT_DEF_HEAT : ℚ := 2
def POINT_DEF_SHOTS : ℤ := 6

def ENEMY_SIZE : ℤ := 24
def ENEMY_SPEED : ℚ := 13/10
def ENEMY_MAX_HP : ℚ := 120
def ENEMY_MAX_HEAT : ℚ := 80
def ENEMY_COOL_RATE : ℚ := 3/25
def ENEMY_FIRE_COOLDOWN : ℚ := 7/5
def ENEMY_LASER_HEAT : ℚ := 4
def ENEMY_LASER_SPEED : ℚ := 9
def ENEMY_LASER_DAMAGE : ℚ := 7

/-- The enemy's single laser spec (built inline in `Enemy.__init__`). -/
def ENEMY_LASER_SPEC : WeaponSpec :=
  { speed := ENEMY_LASER_SPEED, damage := ENEMY_LASER_DAMAGE, heat := ENEMY_LASER_HEAT,
    cooldown := ENEMY_FIRE_COOLDOWN, color := RED, size := 3 }

-- rects -----------------------------------------------------------------------

/-- An integer pygame rect. -/
structure Rect where
  left : ℤ
  top : ℤ
  w : ℤ
  h : ℤ
  deriving DecidableEq

def Rect.right (r : Rect) : ℤ := r.left + r.w

def Rect.bottom (r : Rect) : ℤ := r.top + r.h

/-- `pygame.Rect.colliderect`: strict overlap; zero-sized rects never collide. -/
def Rect.collide (a b : Rect) : Bool :=
  a.w ≠ 0 && a.h ≠ 0 && b.w ≠ 0 && b.h ≠ 0 &&
    (a.left < b.right && a.top < b.bottom && a.right > b.left && a.bottom > b.top)

/-- A `w × h` rect centered at integer point `(cx, cy)`
(pygame center setter: `left = cx - w / 2`, integer division). -/
def rectAt (cx cy w h : ℤ) : Rect := ⟨cx - w / 2, cy - h / 2, w, h⟩

def screen_rect : Rect := ⟨0, 0, WIDTH, HEIGHT⟩

-- sprites ---------------------------------------------------------------------

/-- A potential homing target (a sprite with an integer rect center and a
liveness flag), as read by `Missile.acquire_target`. -/
structure Target where
  alive : Bool
  cx : ℤ
  cy : ℤ
  deriving DecidableEq

/-- The extra state a `Missile` carries over a plain `Projectile`. -/
structure MissileData where
  targetGroup : List Target
  accel : ℚ
  lifetime : ℚ
  deriving DecidableEq

/-- A projectile sprite; `missileData = some _` marks the `Missile` subclass. -/
structure Proj where
  spec : WeaponSpec
  angle : ℚ
  speed : ℚ
  damage : ℚ
  x : ℚ
  y : ℚ
  vx : ℚ
  vy : ℚ
  missileData : Option MissileData := none
  deriving DecidableEq

/-- `Projectile.__init__`: velocity from the spec speed along `angle - 90`. -/
def mkProjectile (cosd sind : ℚ → ℚ) (x y angle : ℚ) (spec : WeaponSpec) : Proj :=
  { spec := spec, angle := angle, speed := spec.speed, damage := spec.damage,
    x := x, y := y,
    vx := spec.speed * cosd (angle - 90),
    vy := spec.speed * sind (angle - 90) }

/-- The projectile's current rect: `spec.size` square centered at `(int x, int y)`. -/
def Proj.rect (p : Proj) : Rect := rectAt (pyInt p.x) (pyInt p.y) p.spec.size p.spec.size

/-- `Projectile.update`: move by one velocity step, re-center the rect, and
kill the sprite when it no longer collides the screen rect.  Returns the
updated sprite and its liveness. -/
def Proj.updateCore (p : Proj) : Proj × Bool :=
  let p' := { p with x := p.x + p.vx, y := p.y + p.vy }
  (p', screen_rect.collide p'.rect)

/-- Squared distance from the missile to a target's rect center.  The source
computes `math.hypot` of the two differences as the `min` key; square roots
are strictly monotone on nonnegatives, so the squared key yields the same
minimum (ties included). -/
def dist2 (m : Proj) (t : Target) : ℚ :=
  ((t.cx : ℚ) - m.x) ^ 2 + ((t.cy : ℚ) - m.y) ^ 2

/-- Python `min(living, key)` keeps the first element with minimal key. -/
def minByDist2 (m : Proj) (t : Target) (ts : List Target) : Target :=
  ts.foldl (fun best u => if dist2 m u < dist2 m best then u else best) t

/-- `Missile.acquire_target`: `None` for a falsy (empty) group or no living
member, else the nearest living member. -/
def acquire_target (m : Proj) (md : MissileData) : Option Target :=
  if md.targetGroup = [] then none
  else
    match md.targetGroup.filter (fun t => t.alive) with
    | [] => none
    | t :: ts => some (minByDist2 m t ts)

/-- The missile's heading after the guidance step: unchanged with no target,
otherwise turned by the bearing error clamped to [-4, 4] degrees. -/
def missileNewAngle (atan2d : ℚ → ℚ → ℚ) (m : Proj) (md : MissileData) : ℚ :=
  match acquire_target m md with
  | none => m.angle
  | some t =>
      let dx := (t.cx : ℚ) - m.x
      let dy := (t.cy : ℚ) - m.y
      let desired := atan2d dy dx + 90
      let diff := qmod (desired - m.angle + 540) 360 - 180
      m.angle + max (-4) (min 4 diff)

/-- Velocity x-component after accelerating along the new heading. -/
def missileAccVx (cosd : ℚ → ℚ) (atan2d : ℚ → ℚ → ℚ) (m : Proj) (md : MissileData) : ℚ :=
  m.vx + md.accel * cosd (missileNewAngle atan2d m md - 90)

/-- Velocity y-component after accelerating along the new heading. -/
def missileAccVy (sind : ℚ → ℚ) (atan2d : ℚ → ℚ → ℚ) (m : Proj) (md : MissileData) : ℚ :=
  m.vy + md.accel * sind (missileNewAngle atan2d m md - 90)

/-- `Missile.update`: expire when `lifetime ≤ 0`; otherwise decrement the
lifetime, turn toward the acquired target (turn rate clamped to 4 degrees),
accelerate along the new heading, rescale the velocity when its norm exceeds
`1.8 * spec.speed`, then do the plain projectile move/cull step.
(`acquire_target` does not read the lifetime, so acquiring before or after
the decrement is the same.) -/
def missileUpdate (cosd sind : ℚ → ℚ) (atan2d hypotQ : ℚ → ℚ → ℚ)
    (m : Proj) (md : MissileData) : Proj × Bool :=
  if md.lifetime ≤ 0 then (m, false)
  else
    let angle' := missileNewAngle atan2d m md
    let ax := missileAccVx cosd atan2d m md
    let ay := missileAccVy sind atan2d m md
    let hy := hypotQ ax ay
    let cap := m.spec.speed * (9/5)
    let vx' := if hy > cap then ax * (cap / hy) else ax
    let vy' := if hy > cap then ay * (cap / hy) else ay
    Proj.updateCore
      { m with angle := angle', vx := vx', vy := vy',
               missileData := some { md with lifetime := md.lifetime - 1 } }

/-- Dynamic dispatch of `update` over the two projectile classes. -/
def projUpdate (cosd sind : ℚ → ℚ) (atan2d hypotQ : ℚ → ℚ → ℚ) (p : Proj) : Proj × Bool :=
  match p.missileData with
  | some md => missileUpdate cosd sind atan2d hypotQ p md
  | none => Proj.updateCore p

-- spacecraft ------------------------------------------------------------------

/-- A weapon slot: the spec dict plus the running cooldown timer. -/
structure WeaponSlot where
  spec : WeaponSpec
  timer : ℚ
  deriving DecidableEq

def laserKey : String := "laser"
def railKey : String := "rail"
def missKey : String := "miss"

/-- Weapon-dict lookup (`self.weapons[name]`); `none` models a `KeyError`. -/
def lookupSlot : List (String × WeaponSlot) → String → Option WeaponSlot
  | [], _ => none
  | (n, w) :: rest, k => if n = k then some w else lookupSlot rest k

/-- The mutable state of a `Spacecraft`.  The rect is represented by its
width/height (`rect_w`, `rect_h`; they change only under `rotate`, which
re-centers the rect) together with the invariant center `(int x, int y)`. -/
structure Spacecraft where
  size : ℤ
  color : Color
  rect_w : ℤ
  rect_h : ℤ
  x : ℚ
  y : ℚ
  vx : ℚ
  vy : ℚ
  angle : ℚ
  heat : ℚ
  max_heat : ℚ
  cool_rate : ℚ
  hp : ℚ
  max_hp : ℚ
  projectiles : List Proj
  weapons : List (String × WeaponSlot)
  current_weapon : String
  pd_cooldown : ℚ
  pd_shots : ℤ
  deriving DecidableEq

def Spacecraft.rectCenterx (s : Spacecraft) : ℤ := pyInt s.x

def Spacecraft.rectCentery (s : Spacecraft) : ℤ := pyInt s.y

def Spacecraft.rect (s : Spacecraft) : Rect :=
  rectAt s.rectCenterx s.rectCentery s.rect_w s.rect_h

/-- `Spacecraft.__init__`. -/
def mkSpacecraft (x y : ℚ) (size : ℤ) (color : Color) : Spacecraft :=
  { size := size, color := color, rect_w := size, rect_h := size,
    x := x, y := y, vx := 0, vy := 0, angle := 0,
    heat := 0, max_heat := 100, cool_rate := 1/10, hp := 100, max_hp := 100,
    projectiles := [],
    weapons := [(laserKey, ⟨LASER, 0⟩), (railKey, ⟨RAIL, 0⟩), (missKey, ⟨MISS, 0⟩)],
    current_weapon := laserKey,
    pd_cooldown := 0, pd_shots := POINT_DEF_SHOTS }

/-- `Player.__init__`. -/
def mkPlayer (x y : ℚ) : Spacecraft :=
  { mkSpacecraft x y PLAYER_SIZE BLUE with
    max_heat := PLAYER_MAX_HEAT, cool_rate := PLAYER_COOL_RATE,
    max_hp := PLAYER_MAX_HP, hp := PLAYER_MAX_HP }

/-- `Enemy.__init__` (the AI target reference and `self.speed` feed only the
enemy steering logic, which no claim concerns). -/
def mkEnemy (x y : ℚ) : Spacecraft :=
  { mkSpacecraft x y ENEMY_SIZE RED with
    max_heat := ENEMY_MAX_HEAT, cool_rate := ENEMY_COOL_RATE,
    max_hp := ENEMY_MAX_HP, hp := ENEMY_MAX_HP,
    weapons := [(laserKey, ⟨ENEMY_LASER_SPEC, 0⟩)],
    current_weapon := laserKey }

def Spacecraft.is_overheated (s : Spacecraft) : Prop := s.heat ≥ s.max_heat

instance (s : Spacecraft) : Decidable s.is_overheated :=
  inferInstanceAs (Decidable (s.heat ≥ s.max_heat))

/-- `Spacecraft.apply_thrust`: silently ignored while overheated, otherwise
accelerate along the current heading and add the fixed engine heat 0.06. -/
def Spacecraft.apply_thrust (cosd sind : ℚ → ℚ) (thrust : ℚ) (s : Spacecraft) : Spacecraft :=
  if s.is_overheated then s
  else
    { s with vx := s.vx + thrust * cosd (s.angle - 90),
             vy := s.vy + thrust * sind (s.angle - 90),
             heat := s.heat + 3/50 }

/-- `Spacecraft.cooled`: heat decays by `cool_rate * dt`, floored at zero. -/
def Spacecraft.cooled (dt : ℚ) (s : Spacecraft) : Spacecraft :=
  { s with heat := max 0 (s.heat - s.cool_rate * dt) }

/-- The wrapped rect left coordinate (`wrap`, horizontal part):
`rect.right = 0` when strictly past the right border, `rect.left = WIDTH`
when strictly past the left border. -/
def wrapLeft (l w : ℤ) : ℤ :=
  if l > WIDTH then -w else if l + w < 0 then WIDTH else l

/-- The wrapped rect top coordinate (`wrap`, vertical part). -/
def wrapTop (t h : ℤ) : ℤ :=
  if t > HEIGHT then -h else if t + h < 0 then HEIGHT else t

/-- `Spacecraft.update`: move by `velocity * dt`, re-center the rect on
`(int x, int y)`, apply `wrap` (which also re-synchronises the float position
with the rect center), cool down, decrement the weapon and point-defence
timers flooring at zero, and update the own projectile group (killed
projectiles drop out of the group). -/
def Spacecraft.update (cosd sind : ℚ → ℚ) (atan2d hypotQ : ℚ → ℚ → ℚ)
    (dt : ℚ) (s : Spacecraft) : Spacecraft :=
  let cx := pyInt (s.x + s.vx * dt)
  let cy := pyInt (s.y + s.vy * dt)
  let l1 := wrapLeft (cx - s.rect_w / 2) s.rect_w
  let t1 := wrapTop (cy - s.rect_h / 2) s.rect_h
  { s with
    x := ((l1 + s.rect_w / 2 : ℤ) : ℚ),
    y := ((t1 + s.rect_h / 2 : ℤ) : ℚ),
    heat := max 0 (s.heat - s.cool_rate * dt),
    weapons := s.weapons.map (fun p => (p.1, ⟨p.2.spec, max 0 (p.2.timer - dt)⟩)),
    pd_cooldown := max 0 (s.pd_cooldown - dt),
    projectiles := (s.projectiles.map (projUpdate cosd sind atan2d hypotQ)).filterMap
      (fun q => if q.2 then some q.1 else none) }

/-- `Spacecraft.fire`: look up the selected slot (`none` models a dict
`KeyError`, also for a missile spec missing `accel`/`lifetime`); a silent
no-op while the timer runs or the ship is overheated; otherwise spawn one
projectile (a homing missile for the `miss` slot) at the muzzle, add the
spec heat, and reset the slot timer to the spec cooldown. -/
def Spacecraft.fire (cosd sind : ℚ → ℚ) (missile_targets : List Target)
    (s : Spacecraft) : Option Spacecraft :=
  match lookupSlot s.weapons s.current_weapon with
  | none => none
  | some wpn =>
    if wpn.timer > 0 ∨ s.is_overheated then some s
    else
      let spec := wpn.spec
      let mx := (s.rectCenterx : ℚ) + (s.size : ℚ) * (3/5) * cosd (s.angle - 90)
      let my := (s.rectCentery : ℚ) + (s.size : ℚ) * (3/5) * sind (s.angle - 90)
      let projOpt : Option Proj :=
        if s.current_weapon = missKey then
          match spec.accel, spec.lifetime with
          | some ac, some lt =>
              some { mkProjectile cosd sind mx my s.angle spec with
                     missileData := some ⟨missile_targets, ac, lt⟩ }
          | _, _ => none
        else some (mkProjectile cosd sind mx my s.angle spec)
      match projOpt with
      | none => none
      | some proj =>
          some { s with
                 projectiles := s.projectiles ++ [proj],
                 heat := s.heat + spec.heat,
                 weapons := s.weapons.map (fun p =>
                   if p.1 = s.current_weapon then (p.1, ⟨p.2.spec, spec.cooldown⟩) else p) }

/-- The green point-defence shot spec built inline in `point_defence`. -/
def pdSpec : WeaponSpec :=
  { speed := 16, damage := 99, heat := POINT_DEF_HEAT, cooldown := 0,
    color := GREEN, size := 4 }

/-- `Spacecraft.point_defence`: a silent no-op while the PD cooldown runs,
no shots remain, the ship is overheated, or there is no target; otherwise
spawn one PD projectile aimed at the target, add the PD heat, start the PD
cooldown and decrement the shot counter. -/
def Spacecraft.point_defence (cosd sind : ℚ → ℚ) (atan2d : ℚ → ℚ → ℚ)
    (target : Option Target) (s : Spacecraft) : Spacecraft :=
  if s.pd_cooldown > 0 ∨ s.pd_shots ≤ 0 ∨ s.is_overheated ∨ target = none then s
  else
    match target with
    | none => s
    | some t =>
        let dx := (t.cx : ℚ) - (s.rectCenterx : ℚ)
        let dy := (t.cy : ℚ) - (s.rectCentery : ℚ)
        let angle := atan2d dy dx + 90
        let pd_proj := mkProjectile cosd sind (s.rectCenterx : ℚ) (s.rectCentery : ℚ) angle pdSpec
        { s with projectiles := s.projectiles ++ [pd_proj],
                 heat := s.heat + POINT_DEF_HEAT,
                 pd_cooldown := POINT_DEF_COOLDOWN,
                 pd_shots := s.pd_shots - 1 }

/-- `Spacecraft.reload_pd`. -/
def Spacecraft.reload_pd (s : Spacecraft) : Spacecraft :=
  { s with pd_shots := POINT_DEF_SHOTS }

-- the per-frame collision passes (game_loop) ----------------------------------

/-- One directed bullets-versus-ship pass (`player bullets → enemy` and
`enemy bullets → player` are both instances): every bullet whose rect
overlaps the ship's rect is killed and its damage subtracted from the ship's
hp; when hp drops to ≤ 0, the ship is killed and the pass `break`s, leaving
the remaining bullets untested.  Returns the surviving bullets, the final hp
and whether the ship was killed. -/
def bulletPass (shipRect : Rect) : List Proj → ℚ → List Proj × ℚ × Bool
  | [], hp => ([], hp, false)
  | b :: rest, hp =>
    if shipRect.collide b.rect then
      let hp' := hp - b.damage
      if hp' ≤ 0 then (rest, hp', true)
      else
        let r := bulletPass shipRect rest hp'
        (r.1, r.2)
    else
      let r := bulletPass shipRect rest hp
      (b :: r.1, r.2)

/-- The point-defence block: for each listed PD shot in order,
`spritecollide(pd, enemy_bullets, dokill=True)` kills every enemy bullet
overlapping it, and the PD shot is killed when it hit something.  Returns
the surviving enemy bullets and the surviving PD shots. -/
def pdPass : List Proj → List Proj → List Proj × List Proj
  | [], ebs => (ebs, [])
  | pd :: rest, ebs =>
    let hits := ebs.filter (fun b => pd.rect.collide b.rect)
    let remaining := ebs.filter (fun b => ! pd.rect.collide b.rect)
    let r := pdPass rest remaining
    (r.1, if hits.isEmpty then pd :: r.2 else r.2)

/-- The result of one frame's collision section. -/
structure FrameCollisions where
  playerBullets : List Proj
  enemyBullets : List Proj
  enemyHp : ℚ
  playerHp : ℚ
  enemyKilled : Bool
  playerKilled : Bool
  deriving DecidableEq

/-- The collision section of `game_loop`, in source order: player bullets
versus the enemy ship, enemy bullets versus the player ship, then the
point-defence block over the player bullets with `spec.damage ≥ 90`
(consumed PD shots drop out of the player's bullet group).  Sprite groups
are modelled as lists of values. -/
def collisions (enemyRect playerRect : Rect) (pb eb : List Proj)
    (ehp php : ℚ) : FrameCollisions :=
  let r1 := bulletPass enemyRect pb ehp
  let r2 := bulletPass playerRect eb php
  let pds := r1.1.filter (fun b => (90:ℚ) ≤ b.spec.damage)
  let r3 := pdPass pds r2.1
  { playerBullets := r1.1.filter (fun b => if (90:ℚ) ≤ b.spec.damage then b ∈ r3.2 else True),
    enemyBullets := r3.1,
    enemyHp := r1.2.1, playerHp := r2.2.1,
    enemyKilled := r1.2.2, playerKilled := r2.2.2 }

-- fixed interpretations used by concrete witnesses ----------------------------

/-- A trivially computable stand-in for a transcendental parameter in
concrete witness states (its value is irrelevant to what the witness checks). -/
def czero : ℚ → ℚ := fun _ => 0

/-- Binary variant of `czero`. -/
def czero2 : ℚ → ℚ → ℚ := fun _ _ => 0

-- helper lemmas ---------------------------------------------------------------

theorem pyInt_intCast (n : ℤ) : pyInt ((n : ℤ) : ℚ) = n := by
  simp [pyInt, Rat.num_intCast, Rat.den_intCast, Int.tdiv_one]

theorem lookupSlot_map_timer (g : ℚ → ℚ) (k : String) :
    ∀ l : List (String × WeaponSlot),
      lookupSlot (l.map fun p => (p.1, ⟨p.2.spec, g p.2.timer⟩)) k =
        (lookupSlot l k).map fun w => ⟨w.spec, g w.timer⟩
  | [] => rfl
  | (n, w) :: rest => by
      by_cases h : n = k <;> simp [lookupSlot, h, lookupSlot_map_timer g k rest]

theorem lookupSlot_map_set (k : String) (c : ℚ) :
    ∀ l : List (String × WeaponSlot),
      lookupSlot (l.map fun p => if p.1 = k then (p.1, ⟨p.2.spec, c⟩) else p) k =
        (lookupSlot l k).map fun w => ⟨w.spec, c⟩
  | [] => rfl
  | (n, w) :: rest => by
      by_cases h : n = k
      · rw [List.map_cons, if_pos h]
        simp only [lookupSlot, if_pos h, Option.map_some']
      · rw [List.map_cons, if_neg h]
        simp only [lookupSlot, if_neg h, lookupSlot_map_set k c rest]

/-- The accepted-fire case, shared by several claim theorems: with the slot
found, the timer elapsed, the ship cool enough and (for the missile slot) a
well-formed spec, `fire` spawns exactly one projectile, adds the spec heat
and resets the slot timer, leaving every other spacecraft field unchanged. -/
theorem fire_accept (cosd sind : ℚ → ℚ) (tg : List Target) (s : Spacecraft)
    (wpn : WeaponSlot) (hl : lookupSlot s.weapons s.current_weapon = some wpn)
    (hto : ¬ wpn.timer > 0) (hh : ¬ s.heat ≥ s.max_heat)
    (hwf : s.current_weapon = missKey → wpn.spec.accel.isSome ∧ wpn.spec.lifetime.isSome) :
    ∃ proj, s.fire cosd sind tg = some
      { s with projectiles := s.projectiles ++ [proj],
               heat := s.heat + wpn.spec.heat,
               weapons := s.weapons.map fun p =>
                 if p.1 = s.current_weapon then (p.1, ⟨p.2.spec, wpn.spec.cooldown⟩) else p } := by
  have hcond : ¬ (wpn.timer > 0 ∨ s.is_overheated) := by
    rintro (h | h)
    · exact hto h
    · exact hh h
  by_cases hm : s.current_weapon = missKey
  · obtain ⟨hac, hlt⟩ := hwf hm
    obtain ⟨ac, hac⟩ := Option.isSome_iff_exists.mp hac
    obtain ⟨lt, hlt⟩ := Option.isSome_iff_exists.mp hlt
    simp only [Spacecraft.fire, hl, if_neg hcond, if_pos hm, hac, hlt]
    exact ⟨_, rfl⟩
  · simp only [Spacecraft.fire, hl, if_neg hcond, if_neg hm]
    exact ⟨_, rfl⟩

/-- The rejected-fire case: with the slot found and the timer running or the
ship overheated, `fire` is a silent no-op. -/
theorem fire_reject (cosd sind : ℚ → ℚ) (tg : List Target) (s : Spacecraft)
    (wpn : WeaponSlot) (hl : lookupSlot s.weapons s.current_weapon = some wpn)
    (h : wpn.timer > 0 ∨ s.heat ≥ s.max_heat) :
    s.fire cosd sind tg = some s := by
  have hcond : wpn.timer > 0 ∨ s.is_overheated := h
  simp only [Spacecraft.fire, hl, if_pos hcond]

-- C1 --------------------------------------------------------------------------

/-- C1: for every spacecraft and its selected weapon slot (as found in the
weapon dict, with a well-formed spec for the missile slot), a fire command is
a silent no-op — no projectile, no heat, cooldown timer untouched, the whole
state unchanged — exactly when the slot timer is > 0 or the ship's heat is at
or above its max heat; otherwise it appends exactly one projectile to the
ship's projectile group, adds the spec's configured heat to the ship's heat,
and resets the slot timer to the spec's configured cooldown. -/
theorem fire_rejects_iff_cooling_or_overheated (cosd sind : ℚ → ℚ) (tg : List Target)
    (s : Spacecraft) (wpn : WeaponSlot)
    (hl : lookupSlot s.weapons s.current_weapon = some wpn)
    (hwf : s.current_weapon = missKey → wpn.spec.accel.isSome ∧ wpn.spec.lifetime.isSome) :
    (wpn.timer > 0 ∨ s.heat ≥ s.max_heat → s.fire cosd sind tg = some s) ∧
    (¬ (wpn.timer > 0 ∨ s.heat ≥ s.max_heat) →
      ∃ s' proj, s.fire cosd sind tg = some s'
        ∧ s'.projectiles = s.projectiles ++ [proj]
        ∧ s'.heat = s.heat + wpn.spec.heat
        ∧ lookupSlot s'.weapons s.current_weapon = some ⟨wpn.spec, wpn.spec.cooldown⟩
        ∧ s'.hp = s.hp ∧ s'.x = s.x ∧ s'.y = s.y ∧ s'.vx = s.vx ∧ s'.vy = s.vy
        ∧ s'.pd_shots = s.pd_shots) := by
  constructor
  · exact fire_reject cosd sind tg s wpn hl
  · intro h
    push_neg at h
    obtain ⟨proj, hfire⟩ := fire_accept cosd sind tg s wpn hl
      (by simpa using h.1) (by simpa using h.2) hwf
    refine ⟨_, proj, hfire, rfl, rfl, ?_, rfl, rfl, rfl, rfl, rfl, rfl⟩
    rw [lookupSlot_map_set, hl]
    rfl

/-- Witness for C1 at a fresh player (timer 0, heat 0): the fire is accepted. -/
theorem fire_rejects_iff_cooling_or_overheated_witness :
    ∃ s' proj, (mkPlayer 400 300).fire czero czero [] = some s'
      ∧ s'.projectiles = (mkPlayer 400 300).projectiles ++ [proj]
      ∧ s'.heat = (mkPlayer 400 300).heat + (LASER).heat
      ∧ lookupSlot s'.weapons (mkPlayer 400 300).current_weapon = some ⟨LASER, LASER.cooldown⟩
      ∧ s'.hp = (mkPlayer 400 300).hp ∧ s'.x = (mkPlayer 400 300).x
      ∧ s'.y = (mkPlayer 400 300).y ∧ s'.vx = (mkPlayer 400 300).vx
      ∧ s'.vy = (mkPlayer 400 300).vy ∧ s'.pd_shots = (mkPlayer 400 300).pd_shots := by
  have h := (fire_rejects_iff_cooling_or_overheated czero czero [] (mkPlayer 400 300)
      ⟨LASER, 0⟩
      (by simp [mkPlayer, mkSpacecraft, lookupSlot, laserKey])
      (by simp [mkPlayer, mkSpacecraft, laserKey, missKey])).2
      (by simp [mkPlayer, mkSpacecraft, PLAYER_MAX_HEAT])
  simpa [mkPlayer, mkSpacecraft, laserKey] using h

/-- Inversion for `fire`: a successful fire either left the state unchanged
(rejected) or produced the accepted-fire record. -/
theorem fire_inv (cosd sind : ℚ → ℚ) (tg : List Target) (s s' : Spacecraft)
    (h : s.fire cosd sind tg = some s') :
    s' = s ∨ ∃ wpn proj, lookupSlot s.weapons s.current_weapon = some wpn ∧
      s' = { s with projectiles := s.projectiles ++ [proj],
                    heat := s.heat + wpn.spec.heat,
                    weapons := s.weapons.map fun p =>
                      if p.1 = s.current_weapon then (p.1, ⟨p.2.spec, wpn.spec.cooldown⟩) else p } := by
  cases hlk : lookupSlot s.weapons s.current_weapon with
  | none =>
      simp only [Spacecraft.fire, hlk] at h
      exact Option.noConfusion h
  | some wpn =>
      simp only [Spacecraft.fire, hlk] at h
      by_cases hcond : wpn.timer > 0 ∨ s.is_overheated
      · rw [if_pos hcond] at h
        exact Or.inl (Option.some.inj h).symm
      · rw [if_neg hcond] at h
        by_cases hm : s.current_weapon = missKey
        · rw [if_pos hm] at h
          cases hac : wpn.spec.accel with
          | none => rw [hac] at h; simp at h
          | some ac =>
              cases hlt : wpn.spec.lifetime with
              | none => rw [hac, hlt] at h; simp at h
              | some lt =>
                  rw [hac, hlt] at h
                  exact Or.inr ⟨wpn, _, rfl, (Option.some.inj h).symm⟩
        · rw [if_neg hm] at h
          exact Or.inr ⟨wpn, _, rfl, (Option.some.inj h).symm⟩

-- C6 --------------------------------------------------------------------------

/-- C6: thrusting while heat is at or above max heat is a silent no-op (the
whole state, in particular velocity and heat, is unchanged and no error is
signalled); below max heat, thrust adds `thrust`-scaled acceleration along
the current heading and adds the fixed engine heat 0.06; and every update
step decays heat by `cool_rate * dt` floored at zero (the `cooled` method,
which the update step applies verbatim). -/
theorem thrust_overheated_noop (cosd sind : ℚ → ℚ) (atan2d hypotQ : ℚ → ℚ → ℚ)
    (thrust dt : ℚ) (s : Spacecraft) :
    (s.heat ≥ s.max_heat → s.apply_thrust cosd sind thrust = s) ∧
    (s.heat < s.max_heat →
      (s.apply_thrust cosd sind thrust).vx = s.vx + thrust * cosd (s.angle - 90)
      ∧ (s.apply_thrust cosd sind thrust).vy = s.vy + thrust * sind (s.angle - 90)
      ∧ (s.apply_thrust cosd sind thrust).heat = s.heat + 3/50) ∧
    (s.cooled dt).heat = max 0 (s.heat - s.cool_rate * dt) ∧
    (Spacecraft.update cosd sind atan2d hypotQ dt s).heat = (s.cooled dt).heat := by
  refine ⟨?_, ?_, rfl, rfl⟩
  · intro h
    have : s.is_overheated := h
    simp [Spacecraft.apply_thrust, this]
  · intro h
    have hno : ¬ s.is_overheated := by
      simp only [Spacecraft.is_overheated, ge_iff_le, not_le]
      exact h
    simp [Spacecraft.apply_thrust, hno]

/-- Witness for C6: an exactly-at-max-heat player ignores thrust, and a cool
player gains velocity and engine heat. -/
theorem thrust_overheated_noop_witness :
    ({ mkPlayer 400 300 with heat := 100 }).apply_thrust czero czero (9/20)
      = { mkPlayer 400 300 with heat := 100 }
    ∧ ((mkPlayer 400 300).apply_thrust czero czero (9/20)).heat = (mkPlayer 400 300).heat + 3/50 := by
  constructor
  · exact (thrust_overheated_noop czero czero czero2 czero2 (9/20) 0
      { mkPlayer 400 300 with heat := 100 }).1
      (by simp [mkPlayer, mkSpacecraft, PLAYER_MAX_HEAT])
  · exact ((thrust_overheated_noop czero czero czero2 czero2 (9/20) 0
      (mkPlayer 400 300)).2.1
      (by simp [mkPlayer, mkSpacecraft, PLAYER_MAX_HEAT])).2.2

-- C9 --------------------------------------------------------------------------

/-- C9: cooling floors heat at zero (so heat stays nonnegative through the
decay step), but no operation caps heat from above: an accepted fire or
thrust adds its full heat cost unconditionally, and from heat 99 (< max heat
100) an accepted laser fire leaves the player at heat 104, strictly above
max heat. -/
theorem heat_nonneg_but_uncapped (cosd sind : ℚ → ℚ) (dt thrust : ℚ) (s : Spacecraft)
    (wpn : WeaponSlot) (tg : List Target)
    (hl : lookupSlot s.weapons s.current_weapon = some wpn)
    (hwf : s.current_weapon = missKey → wpn.spec.accel.isSome ∧ wpn.spec.lifetime.isSome) :
    0 ≤ (s.cooled dt).heat
    ∧ (s.heat < s.max_heat → (s.apply_thrust cosd sind thrust).heat = s.heat + 3/50)
    ∧ (¬ wpn.timer > 0 → s.heat < s.max_heat →
        ∃ s', s.fire cosd sind tg = some s' ∧ s'.heat = s.heat + wpn.spec.heat)
    ∧ (({ mkPlayer 400 300 with heat := 99 }).fire czero czero []).map Spacecraft.heat = some 104
    ∧ (99 : ℚ) < PLAYER_MAX_HEAT ∧ PLAYER_MAX_HEAT < (104 : ℚ) := by
  refine ⟨le_max_left 0 _, ?_, ?_, ?_, by norm_num [PLAYER_MAX_HEAT], by norm_num [PLAYER_MAX_HEAT]⟩
  · intro h
    have hno : ¬ s.is_overheated := by
      simp only [Spacecraft.is_overheated, ge_iff_le, not_le]
      exact h
    simp [Spacecraft.apply_thrust, hno]
  · intro hto hh
    obtain ⟨proj, hfire⟩ := fire_accept cosd sind tg s wpn hl hto (not_le.mpr hh) hwf
    exact ⟨_, hfire, rfl⟩
  · simp [Spacecraft.fire, mkPlayer, mkSpacecraft, lookupSlot, laserKey, railKey, missKey,
      Spacecraft.is_overheated, PLAYER_MAX_HEAT, PLAYER_COOL_RATE, PLAYER_MAX_HP, PLAYER_SIZE,
      LASER, mkProjectile, Spacecraft.rectCenterx, Spacecraft.rectCentery, pyInt]
    norm_num

/-- Witness for C9 at a fresh player firing its laser. -/
theorem heat_nonneg_but_uncapped_witness :
    0 ≤ ((mkPlayer 400 300).cooled 1).heat
    ∧ ∃ s', (mkPlayer 400 300).fire czero czero [] = some s'
        ∧ s'.heat = (mkPlayer 400 300).heat + (LASER).heat := by
  have h := heat_nonneg_but_uncapped czero czero 1 0 (mkPlayer 400 300) ⟨LASER, 0⟩ []
    (by simp [mkPlayer, mkSpacecraft, lookupSlot, laserKey])
    (by simp [mkPlayer, mkSpacecraft, laserKey, missKey])
  refine ⟨h.1, ?_⟩
  exact h.2.2.1 (by norm_num) (by simp [mkPlayer, mkSpacecraft, PLAYER_MAX_HEAT])

-- C10 -------------------------------------------------------------------------

/-- C10: under the invariant `0 ≤ pd_shots ≤ 6`, a point-defence fire is a
silent no-op whenever the PD cooldown runs, no shots remain, the ship is
overheated or there is no target, and otherwise decrements the counter by
exactly one (staying within the bounds) and starts the PD cooldown; the
reload command sets the counter to exactly 6 regardless of its value and is
idempotent; the counter starts at 6 and is untouched by update, thrust and
fire. -/
theorem pd_counter_invariant (cosd sind : ℚ → ℚ) (atan2d hypotQ : ℚ → ℚ → ℚ)
    (dt thrust : ℚ) (tgt : Option Target) (tg : List Target) (s : Spacecraft)
    (h0 : 0 ≤ s.pd_shots) (h6 : s.pd_shots ≤ 6) :
    (s.pd_cooldown > 0 ∨ s.pd_shots ≤ 0 ∨ s.heat ≥ s.max_heat ∨ tgt = none →
      s.point_defence cosd sind atan2d tgt = s) ∧
    (¬ (s.pd_cooldown > 0 ∨ s.pd_shots ≤ 0 ∨ s.heat ≥ s.max_heat ∨ tgt = none) →
      (s.point_defence cosd sind atan2d tgt).pd_shots = s.pd_shots - 1
      ∧ 0 ≤ (s.point_defence cosd sind atan2d tgt).pd_shots
      ∧ (s.point_defence cosd sind atan2d tgt).pd_shots ≤ 6
      ∧ (s.point_defence cosd sind atan2d tgt).pd_cooldown = POINT_DEF_COOLDOWN) ∧
    s.reload_pd.pd_shots = 6 ∧ s.reload_pd.reload_pd = s.reload_pd ∧
    (∀ x y sz col, (mkSpacecraft x y sz col).pd_shots = 6) ∧
    (Spacecraft.update cosd sind atan2d hypotQ dt s).pd_shots = s.pd_shots ∧
    (s.apply_thrust cosd sind thrust).pd_shots = s.pd_shots ∧
    (∀ s', s.fire cosd sind tg = some s' → s'.pd_shots = s.pd_shots) := by
  refine ⟨?_, ?_, rfl, rfl, fun x y sz col => rfl, rfl, ?_, ?_⟩
  · intro h
    have h' : s.pd_cooldown > 0 ∨ s.pd_shots ≤ 0 ∨ s.is_overheated ∨ tgt = none := h
    simp [Spacecraft.point_defence, if_pos h']
  · intro h
    have h' : ¬ (s.pd_cooldown > 0 ∨ s.pd_shots ≤ 0 ∨ s.is_overheated ∨ tgt = none) := h
    push_neg at h
    obtain ⟨hc, hs, hh, hn⟩ := h
    obtain ⟨t, ht⟩ := Option.ne_none_iff_exists.mp hn
    subst ht
    simp only [Spacecraft.point_defence, if_neg h']
    refine ⟨trivial, ?_, ?_, trivial⟩
    · show (0:ℤ) ≤ s.pd_shots - 1
      omega
    · show s.pd_shots - 1 ≤ (6:ℤ)
      omega
  · by_cases h : s.is_overheated <;> simp [Spacecraft.apply_thrust, h]
  · intro s' hs'
    rcases fire_inv cosd sind tg s s' hs' with h | ⟨wpn, proj, hlk, h⟩ <;> rw [h]

/-- Witness for C10 at a fresh player with a concrete PD target. -/
theorem pd_counter_invariant_witness :
    ((mkPlayer 400 300).point_defence czero czero czero2 (some ⟨true, 410, 300⟩)).pd_shots
      = (mkPlayer 400 300).pd_shots - 1 := by
  have h := (pd_counter_invariant czero czero czero2 czero2 0 0 (some ⟨true, 410, 300⟩) []
    (mkPlayer 400 300) (by simp [mkPlayer, mkSpacecraft, POINT_DEF_SHOTS])
    (by simp [mkPlayer, mkSpacecraft, POINT_DEF_SHOTS])).2.1
  exact (h (by simp [mkPlayer, mkSpacecraft, PLAYER_MAX_HEAT, POINT_DEF_SHOTS])).1

-- C5 --------------------------------------------------------------------------

/-- The update step's effect on the weapon dict, read off the definition. -/
theorem update_weapons_eq (cosd sind : ℚ → ℚ) (atan2d hypotQ : ℚ → ℚ → ℚ)
    (dt : ℚ) (s : Spacecraft) :
    (Spacecraft.update cosd sind atan2d hypotQ dt s).weapons
      = s.weapons.map fun p => (p.1, ⟨p.2.spec, max 0 (p.2.timer - dt)⟩) := rfl

/-- C5: weapon cooldown timers never go negative: an update step maps every
slot timer to `max 0 (timer - dt)` (so every post-update timer is ≥ 0), an
accepted fire resets the selected slot's timer to its spec's configured
cooldown and keeps all timers nonnegative when that cooldown is, the four
configured weapon specs all have strictly positive cooldowns, and both ships
start with all timers at 0. -/
theorem cooldown_timers_nonneg (cosd sind : ℚ → ℚ) (atan2d hypotQ : ℚ → ℚ → ℚ)
    (dt x y : ℚ) (tg : List Target) (s : Spacecraft) (wpn : WeaponSlot)
    (hl : lookupSlot s.weapons s.current_weapon = some wpn)
    (hwf : s.current_weapon = missKey → wpn.spec.accel.isSome ∧ wpn.spec.lifetime.isSome) :
    (∀ p ∈ (Spacecraft.update cosd sind atan2d hypotQ dt s).weapons, 0 ≤ p.2.timer) ∧
    (∀ k w, lookupSlot s.weapons k = some w →
      lookupSlot (Spacecraft.update cosd sind atan2d hypotQ dt s).weapons k
        = some ⟨w.spec, max 0 (w.timer - dt)⟩) ∧
    (¬ wpn.timer > 0 → s.heat < s.max_heat →
      ∃ s', s.fire cosd sind tg = some s'
        ∧ lookupSlot s'.weapons s.current_weapon = some ⟨wpn.spec, wpn.spec.cooldown⟩) ∧
    ((∀ p ∈ s.weapons, 0 ≤ p.2.timer) → 0 ≤ wpn.spec.cooldown →
      ∀ s', s.fire cosd sind tg = some s' → ∀ p ∈ s'.weapons, 0 ≤ p.2.timer) ∧
    0 < LASER.cooldown ∧ 0 < RAIL.cooldown ∧ 0 < MISS.cooldown ∧ 0 < ENEMY_LASER_SPEC.cooldown ∧
    (mkPlayer x y).weapons = [(laserKey, ⟨LASER, 0⟩), (railKey, ⟨RAIL, 0⟩), (missKey, ⟨MISS, 0⟩)] ∧
    (mkEnemy x y).weapons = [(laserKey, ⟨ENEMY_LASER_SPEC, 0⟩)] := by
  refine ⟨?_, ?_, ?_, ?_, by norm_num [LASER], by norm_num [RAIL], by norm_num [MISS],
    by norm_num [ENEMY_LASER_SPEC, ENEMY_FIRE_COOLDOWN], rfl, rfl⟩
  · intro p hp
    rw [update_weapons_eq] at hp
    obtain ⟨q, hq, rfl⟩ := List.mem_map.mp hp
    exact le_max_left 0 _
  · intro k w hw
    rw [update_weapons_eq]
    simp [lookupSlot_map_timer (fun t => max 0 (t - dt)) k, hw]
  · intro hto hh
    obtain ⟨proj, hfire⟩ := fire_accept cosd sind tg s wpn hl hto (not_le.mpr hh) hwf
    refine ⟨_, hfire, ?_⟩
    rw [lookupSlot_map_set, hl]
    rfl
  · intro hall hcool s' hs'
    rcases fire_inv cosd sind tg s s' hs' with h | ⟨w, proj, hlk, h⟩
    · rw [h]; exact hall
    · rw [h]
      intro p hp
      obtain ⟨q, hq, rfl⟩ := List.mem_map.mp hp
      by_cases hk : q.1 = s.current_weapon
      · rw [if_pos hk]
        have : w = wpn := by rw [hlk] at hl; exact Option.some.inj hl
        subst this
        exact hcool
      · rw [if_neg hk]
        exact hall q hq

/-- Witness for C5: on a fresh player the laser timer after an update with
`dt = 1/4` is `max 0 (0 - 1/4) = 0`, still nonnegative. -/
theorem cooldown_timers_nonneg_witness :
    lookupSlot (Spacecraft.update czero czero czero2 czero2 (1/4) (mkPlayer 400 300)).weapons
      laserKey = some ⟨LASER, max 0 (0 - 1/4)⟩ :=
  (cooldown_timers_nonneg czero czero czero2 czero2 (1/4) 0 0 [] (mkPlayer 400 300) ⟨LASER, 0⟩
    (by simp [mkPlayer, mkSpacecraft, lookupSlot, laserKey])
    (by simp [mkPlayer, mkSpacecraft, laserKey, missKey])).2.1 laserKey ⟨LASER, 0⟩
    (by simp [mkPlayer, mkSpacecraft, lookupSlot, laserKey])

-- C3 --------------------------------------------------------------------------

/-- C3 counterexample: with velocity 3 and `dt = 1/4`, the spacecraft update
leaves `x` at 400 — the advanced position 400.75 is truncated to the integer
rect center — so position does not advance by `velocity * dt`; and a weapon
timer of 1/10 becomes 0 under `dt = 1/4`, not `1/10 - 1/4`: timers floor at
zero rather than decrementing by `dt`. -/
theorem update_kinematics_cex :
    (Spacecraft.update czero czero czero2 czero2 (1/4)
        { mkPlayer 400 300 with vx := 3, weapons := [(laserKey, ⟨LASER, 1/10⟩)] }).x = 400
    ∧ (400 : ℚ) ≠ 400 + 3 * (1/4)
    ∧ (lookupSlot (Spacecraft.update czero czero czero2 czero2 (1/4)
        { mkPlayer 400 300 with vx := 3, weapons := [(laserKey, ⟨LASER, 1/10⟩)] }).weapons
        laserKey).map WeaponSlot.timer = some 0
    ∧ (0 : ℚ) ≠ 1/10 - 1/4 := by
  refine ⟨?_, by norm_num, ?_, by norm_num⟩
  · norm_num [Spacecraft.update, mkPlayer, mkSpacecraft, pyInt, Int.tdiv, wrapLeft, wrapTop,
      WIDTH, HEIGHT, PLAYER_SIZE, PLAYER_MAX_HEAT, PLAYER_COOL_RATE, PLAYER_MAX_HP]
  · rw [update_weapons_eq]
    simp [lookupSlot, laserKey]
    norm_num

/-- C3 (amended): the spacecraft update advances the position by
`velocity * dt` and then snaps it to the integer rect center (with screen
wrap; away from the wrap edges this is exactly `int(x + vx*dt)`); weapon
cooldown timers and the point-defence cooldown decrease by `dt` but floor at
zero; and a plain projectile's update advances its position by exactly its
velocity, with no `dt` scaling. -/
theorem update_kinematics (cosd sind : ℚ → ℚ) (atan2d hypotQ : ℚ → ℚ → ℚ)
    (dt : ℚ) (s : Spacecraft) (p : Proj)
    (hpl : p.missileData = none)
    (hb1 : ¬ pyInt (s.x + s.vx * dt) - s.rect_w / 2 > WIDTH)
    (hb2 : ¬ pyInt (s.x + s.vx * dt) - s.rect_w / 2 + s.rect_w < 0)
    (hb3 : ¬ pyInt (s.y + s.vy * dt) - s.rect_h / 2 > HEIGHT)
    (hb4 : ¬ pyInt (s.y + s.vy * dt) - s.rect_h / 2 + s.rect_h < 0) :
    (Spacecraft.update cosd sind atan2d hypotQ dt s).x = ((pyInt (s.x + s.vx * dt) : ℤ) : ℚ)
    ∧ (Spacecraft.update cosd sind atan2d hypotQ dt s).y = ((pyInt (s.y + s.vy * dt) : ℤ) : ℚ)
    ∧ (∀ k w, lookupSlot s.weapons k = some w →
        lookupSlot (Spacecraft.update cosd sind atan2d hypotQ dt s).weapons k
          = some ⟨w.spec, max 0 (w.timer - dt)⟩)
    ∧ (Spacecraft.update cosd sind atan2d hypotQ dt s).pd_cooldown = max 0 (s.pd_cooldown - dt)
    ∧ (projUpdate cosd sind atan2d hypotQ p).1.x = p.x + p.vx
    ∧ (projUpdate cosd sind atan2d hypotQ p).1.y = p.y + p.vy := by
  refine ⟨?_, ?_, ?_, rfl, ?_, ?_⟩
  · show ((wrapLeft (pyInt (s.x + s.vx * dt) - s.rect_w / 2) s.rect_w + s.rect_w / 2 : ℤ) : ℚ)
      = ((pyInt (s.x + s.vx * dt) : ℤ) : ℚ)
    rw [wrapLeft, if_neg hb1, if_neg hb2]
    congr 1
    omega
  · show ((wrapTop (pyInt (s.y + s.vy * dt) - s.rect_h / 2) s.rect_h + s.rect_h / 2 : ℤ) : ℚ)
      = ((pyInt (s.y + s.vy * dt) : ℤ) : ℚ)
    rw [wrapTop, if_neg hb3, if_neg hb4]
    congr 1
    omega
  · intro k w hw
    rw [update_weapons_eq]
    simp [lookupSlot_map_timer (fun t => max 0 (t - dt)) k, hw]
  · simp [projUpdate, hpl, Proj.updateCore]
  · simp [projUpdate, hpl, Proj.updateCore]

/-- Witness for C3 (amended) at the counterexample state and a concrete
laser bolt. -/
theorem update_kinematics_witness :
    (Spacecraft.update czero czero czero2 czero2 (1/4)
        { mkPlayer 400 300 with vx := 3 }).x
      = ((pyInt ((mkPlayer 400 300).x + 3 * (1/4)) : ℤ) : ℚ)
    ∧ (projUpdate czero czero czero2 czero2 (mkProjectile czero czero 100 100 0 LASER)).1.x
      = (mkProjectile czero czero 100 100 0 LASER).x
        + (mkProjectile czero czero 100 100 0 LASER).vx := by
  have h := update_kinematics czero czero czero2 czero2 (1/4)
    { mkPlayer 400 300 with vx := 3 } (mkProjectile czero czero 100 100 0 LASER)
    rfl
    (by norm_num [pyInt, Int.tdiv, mkPlayer, mkSpacecraft, PLAYER_SIZE, WIDTH])
    (by norm_num [pyInt, Int.tdiv, mkPlayer, mkSpacecraft, PLAYER_SIZE])
    (by norm_num [pyInt, Int.tdiv, mkPlayer, mkSpacecraft, PLAYER_SIZE, HEIGHT])
    (by norm_num [pyInt, Int.tdiv, mkPlayer, mkSpacecraft, PLAYER_SIZE])
  exact ⟨h.1, h.2.2.2.2.1⟩

-- C7 --------------------------------------------------------------------------

/-- The post-update rect left edge is the wrapped left coordinate. -/
theorem update_rect_left (cosd sind : ℚ → ℚ) (atan2d hypotQ : ℚ → ℚ → ℚ)
    (dt : ℚ) (s : Spacecraft) :
    (Spacecraft.update cosd sind atan2d hypotQ dt s).rect.left
      = wrapLeft (pyInt (s.x + s.vx * dt) - s.rect_w / 2) s.rect_w := by
  show pyInt ((wrapLeft (pyInt (s.x + s.vx * dt) - s.rect_w / 2) s.rect_w
      + s.rect_w / 2 : ℤ) : ℚ) - s.rect_w / 2 = _
  rw [pyInt_intCast]
  omega

/-- The post-update rect top edge is the wrapped top coordinate. -/
theorem update_rect_top (cosd sind : ℚ → ℚ) (atan2d hypotQ : ℚ → ℚ → ℚ)
    (dt : ℚ) (s : Spacecraft) :
    (Spacecraft.update cosd sind atan2d hypotQ dt s).rect.top
      = wrapTop (pyInt (s.y + s.vy * dt) - s.rect_h / 2) s.rect_h := by
  show pyInt ((wrapTop (pyInt (s.y + s.vy * dt) - s.rect_h / 2) s.rect_h
      + s.rect_h / 2 : ℤ) : ℚ) - s.rect_h / 2 = _
  rw [pyInt_intCast]
  omega

/-- C7 counterexample: a player ship at `x = 813` (rect left edge exactly at
`WIDTH = 800`, so its box lies fully beyond the right screen edge) is not
teleported by the update step — the wrap triggers only strictly past the
border — and is left with a box that does not overlap the screen rect at
all, i.e. fully off-screen after an update step. -/
theorem update_wrap_cex :
    (Spacecraft.update czero czero czero2 czero2 1 (mkPlayer 813 300)).x = 813
    ∧ (Spacecraft.update czero czero czero2 czero2 1 (mkPlayer 813 300)).rect.left = WIDTH
    ∧ screen_rect.collide (Spacecraft.update czero czero czero2 czero2 1
        (mkPlayer 813 300)).rect = false := by
  have hl : (Spacecraft.update czero czero czero2 czero2 1 (mkPlayer 813 300)).rect.left
      = WIDTH := by
    rw [update_rect_left]
    norm_num [mkPlayer, mkSpacecraft, pyInt, Int.tdiv, wrapLeft, WIDTH, PLAYER_SIZE]
  have ht : (Spacecraft.update czero czero czero2 czero2 1 (mkPlayer 813 300)).rect.top
      = 287 := by
    rw [update_rect_top]
    norm_num [mkPlayer, mkSpacecraft, pyInt, Int.tdiv, wrapTop, HEIGHT, PLAYER_SIZE]
  have hw2 : (Spacecraft.update czero czero czero2 czero2 1 (mkPlayer 813 300)).rect.w
      = 26 := rfl
  have hh2 : (Spacecraft.update czero czero czero2 czero2 1 (mkPlayer 813 300)).rect.h
      = 26 := rfl
  refine ⟨?_, hl, ?_⟩
  · norm_num [Spacecraft.update, mkPlayer, mkSpacecraft, pyInt, Int.tdiv, wrapLeft, wrapTop,
      WIDTH, HEIGHT, PLAYER_SIZE, PLAYER_MAX_HEAT, PLAYER_COOL_RATE, PLAYER_MAX_HP]
  · simp [Rect.collide, screen_rect, Rect.right, Rect.bottom, WIDTH, HEIGHT, hl, ht, hw2, hh2]

/-- C7 (amended): after an update step the wrap triggers are all false — the
rect's left edge is at most `WIDTH`, its right edge at least 0, and likewise
vertically (the box can still sit exactly on the boundary, fully outside the
visible area, as the counterexample shows); the float position is always
re-synchronised to the rect center; and when the moved box lies strictly
beyond an edge it is teleported to just outside the opposite edge
(`rect.right = 0` resp. `rect.left = WIDTH`, and vertical analogues). -/
theorem update_wrap_spec (cosd sind : ℚ → ℚ) (atan2d hypotQ : ℚ → ℚ → ℚ)
    (dt : ℚ) (s : Spacecraft) (hw : 0 ≤ s.rect_w) (hh : 0 ≤ s.rect_h) :
    (Spacecraft.update cosd sind atan2d hypotQ dt s).rect.left ≤ WIDTH
    ∧ 0 ≤ (Spacecraft.update cosd sind atan2d hypotQ dt s).rect.right
    ∧ (Spacecraft.update cosd sind atan2d hypotQ dt s).rect.top ≤ HEIGHT
    ∧ 0 ≤ (Spacecraft.update cosd sind atan2d hypotQ dt s).rect.bottom
    ∧ (Spacecraft.update cosd sind atan2d hypotQ dt s).x
      = (((Spacecraft.update cosd sind atan2d hypotQ dt s).rect.left + s.rect_w / 2 : ℤ) : ℚ)
    ∧ (Spacecraft.update cosd sind atan2d hypotQ dt s).y
      = (((Spacecraft.update cosd sind atan2d hypotQ dt s).rect.top + s.rect_h / 2 : ℤ) : ℚ)
    ∧ (pyInt (s.x + s.vx * dt) - s.rect_w / 2 > WIDTH →
        (Spacecraft.update cosd sind atan2d hypotQ dt s).rect.right = 0)
    ∧ (pyInt (s.x + s.vx * dt) - s.rect_w / 2 + s.rect_w < 0 →
        (Spacecraft.update cosd sind atan2d hypotQ dt s).rect.left = WIDTH)
    ∧ (pyInt (s.y + s.vy * dt) - s.rect_h / 2 > HEIGHT →
        (Spacecraft.update cosd sind atan2d hypotQ dt s).rect.bottom = 0)
    ∧ (pyInt (s.y + s.vy * dt) - s.rect_h / 2 + s.rect_h < 0 →
        (Spacecraft.update cosd sind atan2d hypotQ dt s).rect.top = HEIGHT) := by
  have hrw : (Spacecraft.update cosd sind atan2d hypotQ dt s).rect.w = s.rect_w := rfl
  have hrh : (Spacecraft.update cosd sind atan2d hypotQ dt s).rect.h = s.rect_h := rfl
  refine ⟨?_, ?_, ?_, ?_, ?_, ?_, ?_, ?_, ?_, ?_⟩
  · rw [update_rect_left, wrapLeft]
    simp only [WIDTH]
    split_ifs <;> omega
  · rw [Rect.right, hrw, update_rect_left, wrapLeft]
    simp only [WIDTH]
    split_ifs <;> omega
  · rw [update_rect_top, wrapTop]
    simp only [HEIGHT]
    split_ifs <;> omega
  · rw [Rect.bottom, hrh, update_rect_top, wrapTop]
    simp only [HEIGHT]
    split_ifs <;> omega
  · rw [update_rect_left]
    rfl
  · rw [update_rect_top]
    rfl
  · intro htr
    rw [Rect.right, hrw, update_rect_left, wrapLeft, if_pos htr]
    omega
  · intro htr
    rw [update_rect_left, wrapLeft]
    have h1 : ¬ pyInt (s.x + s.vx * dt) - s.rect_w / 2 > WIDTH := by
      simp only [WIDTH] at htr ⊢
      omega
    rw [if_neg h1, if_pos htr]
  · intro htr
    rw [Rect.bottom, hrh, update_rect_top, wrapTop, if_pos htr]
    omega
  · intro htr
    rw [update_rect_top, wrapTop]
    have h1 : ¬ pyInt (s.y + s.vy * dt) - s.rect_h / 2 > HEIGHT := by
      simp only [HEIGHT] at htr ⊢
      omega
    rw [if_neg h1, if_pos htr]

/-- Witness for C7 (amended): a player ship at `x = 814` — rect left edge at
801, strictly beyond the right border — is wrapped so that its rect's right
edge lands at 0. -/
theorem update_wrap_spec_witness :
    (Spacecraft.update czero czero czero2 czero2 1 (mkPlayer 814 300)).rect.right = 0 :=
  (update_wrap_spec czero czero czero2 czero2 1 (mkPlayer 814 300)
    (by norm_num [mkPlayer, mkSpacecraft, PLAYER_SIZE])
    (by norm_num [mkPlayer, mkSpacecraft, PLAYER_SIZE])).2.2.2.2.2.2.1
    (by norm_num [mkPlayer, mkSpacecraft, pyInt, Int.tdiv, PLAYER_SIZE, WIDTH])

-- C2 --------------------------------------------------------------------------

theorem minByDist2_cons (m : Proj) (t u : Target) (us : List Target) :
    minByDist2 m t (u :: us)
      = minByDist2 m (if dist2 m u < dist2 m t then u else t) us := rfl

theorem minByDist2_mem (m : Proj) :
    ∀ (us : List Target) (t : Target), minByDist2 m t us ∈ t :: us
  | [], t => by simp [minByDist2]
  | u :: us, t => by
      rw [minByDist2_cons]
      have h := minByDist2_mem m us (if dist2 m u < dist2 m t then u else t)
      rcases List.mem_cons.mp h with h | h
      · by_cases hc : dist2 m u < dist2 m t
        · rw [if_pos hc] at h ⊢
          simp [h]
        · rw [if_neg hc] at h ⊢
          simp [h]
      · simp [h]

theorem minByDist2_le (m : Proj) :
    ∀ (us : List Target) (t v : Target), v ∈ t :: us →
      dist2 m (minByDist2 m t us) ≤ dist2 m v
  | [], t, v, hv => by
      have : v = t := by simpa using hv
      subst this
      simp [minByDist2]
  | u :: us, t, v, hv => by
      rw [minByDist2_cons]
      have hle_t : dist2 m (if dist2 m u < dist2 m t then u else t) ≤ dist2 m t := by
        by_cases hc : dist2 m u < dist2 m t
        · rw [if_pos hc]; exact le_of_lt hc
        · rw [if_neg hc]
      have hle_u : dist2 m (if dist2 m u < dist2 m t then u else t) ≤ dist2 m u := by
        by_cases hc : dist2 m u < dist2 m t
        · rw [if_pos hc]
        · rw [if_neg hc]; exact not_lt.mp hc
      rcases List.mem_cons.mp hv with rfl | hv2
      · exact le_trans
          (minByDist2_le m us _ _ (List.mem_cons_self _ us)) hle_t
      · rcases List.mem_cons.mp hv2 with rfl | hv3
        · exact le_trans
            (minByDist2_le m us _ _ (List.mem_cons_self _ us)) hle_u
        · exact minByDist2_le m us _ v (List.mem_cons_of_mem _ hv3)

/-- `acquire_target` really picks a nearest living member of the target
group (distance compared through the squared-distance key, which orders
exactly like `math.hypot`). -/
theorem acquire_target_spec (m : Proj) (md : MissileData) (t : Target)
    (h : acquire_target m md = some t) :
    t ∈ md.targetGroup ∧ t.alive = true ∧
      ∀ u ∈ md.targetGroup, u.alive = true → dist2 m t ≤ dist2 m u := by
  by_cases hg : md.targetGroup = []
  · rw [acquire_target, if_pos hg] at h
    exact Option.noConfusion h
  · rw [acquire_target, if_neg hg] at h
    cases hf : md.targetGroup.filter (fun t => t.alive) with
    | nil => rw [hf] at h; exact Option.noConfusion h
    | cons l0 ls =>
        rw [hf] at h
        have ht : t = minByDist2 m l0 ls := (Option.some.inj h).symm
        have hmem : t ∈ l0 :: ls := ht ▸ minByDist2_mem m ls l0
        have hmemf : t ∈ md.targetGroup.filter (fun t => t.alive) := by rw [hf]; exact hmem
        have hmf := List.mem_filter.mp hmemf
        refine ⟨hmf.1, by simpa using hmf.2, ?_⟩
        intro u hu hua
        have huf : u ∈ md.targetGroup.filter (fun t => t.alive) :=
          List.mem_filter.mpr ⟨hu, by simpa using hua⟩
        rw [hf] at huf
        exact ht ▸ minByDist2_le m ls l0 u huf

/-- C2: on an update step of a homing missile with positive remaining
lifetime whose target acquisition finds `t`: `t` is a nearest living member
of the designated target group; the heading turns by the bearing error to
`t` wrapped to (-180, 180] and clamped to ±4 degrees per step; the lifetime
drops by one; the missile then accelerates by `accel` along the new heading
(the velocity is exactly the accelerated one, or that vector rescaled by
`cap / hypot` when its norm exceeds the cap); and the resulting speed obeys
the cap: the squared norm never exceeds `(1.8 * spec.speed)^2`.  The norm
function `hypotQ` is assumed to behave as the Euclidean norm at the one
point where the code evaluates it. -/
theorem missile_update_spec (cosd sind : ℚ → ℚ) (atan2d hypotQ : ℚ → ℚ → ℚ)
    (m : Proj) (md : MissileData) (t : Target)
    (hmd : m.missileData = some md)
    (hl : 0 < md.lifetime)
    (ht : acquire_target m md = some t)
    (hsp : 0 ≤ m.spec.speed)
    (h0 : 0 ≤ hypotQ (missileAccVx cosd atan2d m md) (missileAccVy sind atan2d m md))
    (hsq : hypotQ (missileAccVx cosd atan2d m md) (missileAccVy sind atan2d m md) ^ 2
      = missileAccVx cosd atan2d m md ^ 2 + missileAccVy sind atan2d m md ^ 2) :
    (t ∈ md.targetGroup ∧ t.alive = true
      ∧ ∀ u ∈ md.targetGroup, u.alive = true → dist2 m t ≤ dist2 m u) ∧
    (projUpdate cosd sind atan2d hypotQ m).1.angle
      = m.angle + max (-4) (min 4 (qmod (atan2d ((t.cy : ℚ) - m.y) ((t.cx : ℚ) - m.x) + 90
          - m.angle + 540) 360 - 180)) ∧
    -4 ≤ (projUpdate cosd sind atan2d hypotQ m).1.angle - m.angle ∧
    (projUpdate cosd sind atan2d hypotQ m).1.angle - m.angle ≤ 4 ∧
    (projUpdate cosd sind atan2d hypotQ m).1.missileData
      = some { md with lifetime := md.lifetime - 1 } ∧
    (((projUpdate cosd sind atan2d hypotQ m).1.vx = missileAccVx cosd atan2d m md
        ∧ (projUpdate cosd sind atan2d hypotQ m).1.vy = missileAccVy sind atan2d m md)
      ∨ (hypotQ (missileAccVx cosd atan2d m md) (missileAccVy sind atan2d m md)
            > m.spec.speed * (9/5)
          ∧ (projUpdate cosd sind atan2d hypotQ m).1.vx
            = missileAccVx cosd atan2d m md * (m.spec.speed * (9/5)
                / hypotQ (missileAccVx cosd atan2d m md) (missileAccVy sind atan2d m md))
          ∧ (projUpdate cosd sind atan2d hypotQ m).1.vy
            = missileAccVy sind atan2d m md * (m.spec.speed * (9/5)
                / hypotQ (missileAccVx cosd atan2d m md) (missileAccVy sind atan2d m md)))) ∧
    (projUpdate cosd sind atan2d hypotQ m).1.vx ^ 2
      + (projUpdate cosd sind atan2d hypotQ m).1.vy ^ 2 ≤ (m.spec.speed * (9/5)) ^ 2 := by
  have hup : projUpdate cosd sind atan2d hypotQ m = missileUpdate cosd sind atan2d hypotQ m md := by
    rw [projUpdate, hmd]
  have hnl : ¬ md.lifetime ≤ 0 := not_le.mpr hl
  have hcap0 : (0:ℚ) ≤ m.spec.speed * (9/5) := by positivity
  have hangle : missileNewAngle atan2d m md
      = m.angle + max (-4) (min 4 (qmod (atan2d ((t.cy : ℚ) - m.y) ((t.cx : ℚ) - m.x) + 90
          - m.angle + 540) 360 - 180)) := by
    simp only [missileNewAngle, ht]
  by_cases hcap : hypotQ (missileAccVx cosd atan2d m md) (missileAccVy sind atan2d m md)
      > m.spec.speed * (9/5)
  · have hres : (projUpdate cosd sind atan2d hypotQ m).1
        = { m with angle := missileNewAngle atan2d m md,
                   vx := missileAccVx cosd atan2d m md * (m.spec.speed * (9/5)
                     / hypotQ (missileAccVx cosd atan2d m md) (missileAccVy sind atan2d m md)),
                   vy := missileAccVy sind atan2d m md * (m.spec.speed * (9/5)
                     / hypotQ (missileAccVx cosd atan2d m md) (missileAccVy sind atan2d m md)),
                   missileData := some { md with lifetime := md.lifetime - 1 },
                   x := m.x + missileAccVx cosd atan2d m md * (m.spec.speed * (9/5)
                     / hypotQ (missileAccVx cosd atan2d m md) (missileAccVy sind atan2d m md)),
                   y := m.y + missileAccVy sind atan2d m md * (m.spec.speed * (9/5)
                     / hypotQ (missileAccVx cosd atan2d m md) (missileAccVy sind atan2d m md)) } := by
      rw [hup, missileUpdate, if_neg hnl]
      simp only [if_pos hcap, Proj.updateCore]
    have hhy0 : hypotQ (missileAccVx cosd atan2d m md) (missileAccVy sind atan2d m md) ≠ 0 :=
      ne_of_gt (lt_of_le_of_lt hcap0 hcap)
    refine ⟨acquire_target_spec m md t ht, ?_, ?_, ?_, ?_, Or.inr ⟨hcap, ?_, ?_⟩, ?_⟩
    · rw [hres]
      exact hangle
    · rw [hres]
      show -4 ≤ missileNewAngle atan2d m md - m.angle
      rw [hangle]
      have := le_max_left (-4 : ℚ) (min 4 (qmod (atan2d ((t.cy : ℚ) - m.y) ((t.cx : ℚ) - m.x) + 90
          - m.angle + 540) 360 - 180))
      linarith
    · rw [hres]
      show missileNewAngle atan2d m md - m.angle ≤ 4
      rw [hangle]
      have h1 : min (4:ℚ) (qmod (atan2d ((t.cy : ℚ) - m.y) ((t.cx : ℚ) - m.x) + 90
          - m.angle + 540) 360 - 180) ≤ 4 := min_le_left _ _
      have h2 : max (-4:ℚ) (min 4 (qmod (atan2d ((t.cy : ℚ) - m.y) ((t.cx : ℚ) - m.x) + 90
          - m.angle + 540) 360 - 180)) ≤ 4 := max_le (by norm_num) h1
      linarith
    · rw [hres]
    · rw [hres]
    · rw [hres]
    · rw [hres]
      show (missileAccVx cosd atan2d m md * (m.spec.speed * (9/5)
          / hypotQ (missileAccVx cosd atan2d m md) (missileAccVy sind atan2d m md))) ^ 2
        + (missileAccVy sind atan2d m md * (m.spec.speed * (9/5)
          / hypotQ (missileAccVx cosd atan2d m md) (missileAccVy sind atan2d m md))) ^ 2
        ≤ (m.spec.speed * (9/5)) ^ 2
      have hkey : (missileAccVx cosd atan2d m md * (m.spec.speed * (9/5)
          / hypotQ (missileAccVx cosd atan2d m md) (missileAccVy sind atan2d m md))) ^ 2
        + (missileAccVy sind atan2d m md * (m.spec.speed * (9/5)
          / hypotQ (missileAccVx cosd atan2d m md) (missileAccVy sind atan2d m md))) ^ 2
        = (missileAccVx cosd atan2d m md ^ 2 + missileAccVy sind atan2d m md ^ 2)
          * ((m.spec.speed * (9/5)
          / hypotQ (missileAccVx cosd atan2d m md) (missileAccVy sind atan2d m md)) ^ 2) := by
        ring
      rw [hkey, ← hsq]
      have hval : hypotQ (missileAccVx cosd atan2d m md) (missileAccVy sind atan2d m md) ^ 2
          * ((m.spec.speed * (9/5)
          / hypotQ (missileAccVx cosd atan2d m md) (missileAccVy sind atan2d m md)) ^ 2)
          = (m.spec.speed * (9/5)) ^ 2 := by
        field_simp
        ring
      rw [hval]
  · have hres : (projUpdate cosd sind atan2d hypotQ m).1
        = { m with angle := missileNewAngle atan2d m md,
                   vx := missileAccVx cosd atan2d m md,
                   vy := missileAccVy sind atan2d m md,
                   missileData := some { md with lifetime := md.lifetime - 1 },
                   x := m.x + missileAccVx cosd atan2d m md,
                   y := m.y + missileAccVy sind atan2d m md } := by
      rw [hup, missileUpdate, if_neg hnl]
      simp only [if_neg hcap, Proj.updateCore]
    refine ⟨acquire_target_spec m md t ht, ?_, ?_, ?_, ?_, Or.inl ⟨?_, ?_⟩, ?_⟩
    · rw [hres]
      exact hangle
    · rw [hres]
      show -4 ≤ missileNewAngle atan2d m md - m.angle
      rw [hangle]
      have := le_max_left (-4 : ℚ) (min 4 (qmod (atan2d ((t.cy : ℚ) - m.y) ((t.cx : ℚ) - m.x) + 90
          - m.angle + 540) 360 - 180))
      linarith
    · rw [hres]
      show missileNewAngle atan2d m md - m.angle ≤ 4
      rw [hangle]
      have h1 : min (4:ℚ) (qmod (atan2d ((t.cy : ℚ) - m.y) ((t.cx : ℚ) - m.x) + 90
          - m.angle + 540) 360 - 180) ≤ 4 := min_le_left _ _
      have h2 : max (-4:ℚ) (min 4 (qmod (atan2d ((t.cy : ℚ) - m.y) ((t.cx : ℚ) - m.x) + 90
          - m.angle + 540) 360 - 180)) ≤ 4 := max_le (by norm_num) h1
      linarith
    · rw [hres]
    · rw [hres]
    · rw [hres]
    · rw [hres]
      show missileAccVx cosd atan2d m md ^ 2 + missileAccVy sind atan2d m md ^ 2 ≤ _
      rw [← hsq]
      exact pow_le_pow_left₀ h0 (not_lt.mp hcap) 2

/-- Witness for C2 at a concrete missile (velocity (3,4), accel 0, one
living target) with the norm parameter returning the true norm 5. -/
theorem missile_update_spec_witness :
    (projUpdate czero czero czero2 (fun _ _ => 5)
        { mkProjectile czero czero 100 100 0 MISS with
            vx := 3,
            vy := 4,
            missileData := some ⟨[⟨true, 200, 200⟩], 0, 150⟩ }).1.missileData
      = some ⟨[⟨true, 200, 200⟩], 0, 150 - 1⟩
    ∧ (projUpdate czero czero czero2 (fun _ _ => 5)
        { mkProjectile czero czero 100 100 0 MISS with
            vx := 3,
            vy := 4,
            missileData := some ⟨[⟨true, 200, 200⟩], 0, 150⟩ }).1.vx ^ 2
      + (projUpdate czero czero czero2 (fun _ _ => 5)
        { mkProjectile czero czero 100 100 0 MISS with
            vx := 3,
            vy := 4,
            missileData := some ⟨[⟨true, 200, 200⟩], 0, 150⟩ }).1.vy ^ 2
      ≤ (({ mkProjectile czero czero 100 100 0 MISS with
            vx := 3,
            vy := 4,
            missileData := some ⟨[⟨true, 200, 200⟩], 0, 150⟩ } : Proj).spec.speed * (9/5)) ^ 2 := by
  have h := missile_update_spec czero czero czero2 (fun _ _ => 5)
    { mkProjectile czero czero 100 100 0 MISS with
        vx := 3,
        vy := 4,
        missileData := some ⟨[⟨true, 200, 200⟩], 0, 150⟩ }
    ⟨[⟨true, 200, 200⟩], 0, 150⟩ ⟨true, 200, 200⟩
    rfl (by norm_num)
    (by simp [acquire_target, minByDist2])
    (by norm_num [mkProjectile, MISS])
    (by norm_num)
    (by norm_num [missileAccVx, missileAccVy, czero, mkProjectile])
  exact ⟨h.2.2.2.2.1, h.2.2.2.2.2.2⟩

-- C4 --------------------------------------------------------------------------

/-- An enemy bullet survives the point-defence block iff it was there and
overlaps none of the listed PD shots. -/
theorem pdPass_enemy_mem : ∀ (pds ebs : List Proj) (b : Proj),
    b ∈ (pdPass pds ebs).1 ↔ b ∈ ebs ∧ ∀ pd ∈ pds, ¬ pd.rect.collide b.rect = true
  | [], ebs, b => by simp [pdPass]
  | pd :: rest, ebs, b => by
      simp only [pdPass]
      rw [pdPass_enemy_mem rest _ b]
      simp only [List.mem_filter, Bool.not_eq_true', List.forall_mem_cons]
      constructor
      · rintro ⟨⟨hb, hcol⟩, hrest⟩
        exact ⟨hb, by simp [hcol], hrest⟩
      · rintro ⟨hb, hcol, hrest⟩
        exact ⟨⟨hb, by simpa using hcol⟩, hrest⟩

/-- Surviving PD shots all come from the listed PD shots. -/
theorem pdPass_pds_mem : ∀ (pds ebs : List Proj) (q : Proj),
    q ∈ (pdPass pds ebs).2 → q ∈ pds
  | [], ebs, q => by simp [pdPass]
  | pd :: rest, ebs, q => by
      simp only [pdPass]
      intro h
      by_cases he : (ebs.filter (fun b => pd.rect.collide b.rect)).isEmpty
      · rw [if_pos he] at h
        rcases List.mem_cons.mp h with rfl | h2
        · exact List.mem_cons_self _ _
        · exact List.mem_cons_of_mem _ (pdPass_pds_mem rest _ q h2)
      · rw [if_neg he] at h
        exact List.mem_cons_of_mem _ (pdPass_pds_mem rest _ q h)

/-- A PD shot that overlaps an enemy bullet not claimed by any earlier PD
shot in the pass is consumed. -/
theorem pdPass_consumed : ∀ (pre : List Proj) (pd : Proj) (post ebs : List Proj),
    pd ∉ post →
    (∃ b ∈ ebs, pd.rect.collide b.rect = true ∧ ∀ q ∈ pre, ¬ q.rect.collide b.rect = true) →
    pd ∉ (pdPass (pre ++ pd :: post) ebs).2
  | [], pd, post, ebs, hpost, hex => by
      obtain ⟨b, hb, hcol, _⟩ := hex
      simp only [List.nil_append, pdPass]
      have hne : ¬ (ebs.filter (fun b2 => pd.rect.collide b2.rect)).isEmpty = true := by
        simp only [List.isEmpty_iff]
        intro hemp
        have : b ∈ ebs.filter (fun b2 => pd.rect.collide b2.rect) :=
          List.mem_filter.mpr ⟨hb, hcol⟩
        rw [hemp] at this
        exact List.not_mem_nil b this
      rw [if_neg hne]
      intro hmem
      exact hpost (pdPass_pds_mem post _ pd hmem)
  | q :: pre, pd, post, ebs, hpost, hex => by
      obtain ⟨b, hb, hcol, hpre⟩ := hex
      have hq : ¬ q.rect.collide b.rect = true := hpre q (List.mem_cons_self _ _)
      have hbrem : b ∈ ebs.filter (fun b2 => ! q.rect.collide b2.rect) :=
        List.mem_filter.mpr ⟨hb, by simp [Bool.not_eq_true'] at hq ⊢; exact hq⟩
      have hIH := pdPass_consumed pre pd post (ebs.filter (fun b2 => ! q.rect.collide b2.rect))
        hpost ⟨b, hbrem, hcol, fun q' hq' => hpre q' (List.mem_cons_of_mem _ hq')⟩
      simp only [List.cons_append, pdPass]
      intro hmem
      by_cases he : (ebs.filter (fun b2 => q.rect.collide b2.rect)).isEmpty
      · rw [if_pos he] at hmem
        rcases List.mem_cons.mp hmem with rfl | h2
        · exact hq hcol
        · exact hIH h2
      · rw [if_neg he] at hmem
        exact hIH hmem

/-- A PD shot every one of whose overlapping enemy bullets is also overlapped
by some earlier PD shot of the pass (and hence destroyed before its turn)
finds no hits and survives the pass. -/
theorem pdPass_survives : ∀ (pre : List Proj) (pd : Proj) (post ebs : List Proj),
    (∀ b ∈ ebs, pd.rect.collide b.rect = true → ∃ q ∈ pre, q.rect.collide b.rect = true) →
    pd ∈ (pdPass (pre ++ pd :: post) ebs).2
  | [], pd, post, ebs, hall => by
      simp only [List.nil_append, pdPass]
      have hemp : ebs.filter (fun b2 => pd.rect.collide b2.rect) = [] := by
        rw [List.filter_eq_nil_iff]
        intro b hb
        intro hcol
        obtain ⟨q, hq, _⟩ := hall b hb hcol
        exact List.not_mem_nil q hq
      rw [hemp]
      simp
  | q :: pre, pd, post, ebs, hall => by
      simp only [List.cons_append, pdPass]
      have hall' : ∀ b ∈ ebs.filter (fun b2 => ! q.rect.collide b2.rect),
          pd.rect.collide b.rect = true → ∃ q' ∈ pre, q'.rect.collide b.rect = true := by
        intro b hb hcol
        have hb' := List.mem_filter.mp hb
        have hnq : ¬ q.rect.collide b.rect = true := by
          simpa [Bool.not_eq_true'] using hb'.2
        obtain ⟨q', hq', hq'col⟩ := hall b hb'.1 hcol
        rcases List.mem_cons.mp hq' with rfl | hq'2
        · exact absurd hq'col hnq
        · exact ⟨q', hq'2, hq'col⟩
      have hIH := pdPass_survives pre pd post
        (ebs.filter (fun b2 => ! q.rect.collide b2.rect)) hall'
      split
      · exact List.mem_cons_of_mem _ hIH
      · exact hIH

/-- C4 (amended): in the point-defence block (run over the PD shots listed
at the start of the pass), an enemy projectile survives exactly when it
overlaps none of the listed PD shots — so every enemy projectile overlapping
a listed PD shot is destroyed — and a PD shot is consumed if and only if
some enemy projectile that no earlier PD shot in the pass also overlaps
overlaps it.  (A PD shot whose only overlapping enemy projectiles were
already destroyed by earlier PD shots of the same pass therefore survives,
as the counterexample shows, so the unconditional "the point-defense shot
is consumed" of the original claim is false.) -/
theorem pd_pass_spec (pds ebs : List Proj) :
    (∀ b, b ∈ (pdPass pds ebs).1 ↔ b ∈ ebs ∧ ∀ pd ∈ pds, ¬ pd.rect.collide b.rect = true) ∧
    (∀ pre pd post, pds = pre ++ pd :: post → pd ∉ post →
      (pd ∉ (pdPass pds ebs).2 ↔
        ∃ b ∈ ebs, pd.rect.collide b.rect = true ∧ ∀ q ∈ pre, ¬ q.rect.collide b.rect = true)) := by
  constructor
  · exact fun b => pdPass_enemy_mem pds ebs b
  · intro pre pd post hsplit hpost
    subst hsplit
    constructor
    · intro hnot
      by_contra hnex
      push_neg at hnex
      refine absurd (pdPass_survives pre pd post ebs ?_) hnot
      intro b hb hcol
      have h := hnex b hb hcol
      obtain ⟨q, hq, hqcol⟩ := h
      exact ⟨q, hq, hqcol⟩
    · intro hex
      exact pdPass_consumed pre pd post ebs hpost hex

/-- Witness for C4 (amended): a lone PD shot on top of a lone enemy bullet
is consumed. -/
theorem pd_pass_spec_witness :
    mkProjectile czero czero 100 100 0 pdSpec
      ∉ (pdPass [mkProjectile czero czero 100 100 0 pdSpec]
          [mkProjectile czero czero 100 100 0 ENEMY_LASER_SPEC]).2 :=
  ((pd_pass_spec [mkProjectile czero czero 100 100 0 pdSpec]
      [mkProjectile czero czero 100 100 0 ENEMY_LASER_SPEC]).2
    [] (mkProjectile czero czero 100 100 0 pdSpec) [] rfl (by simp)).mpr
    ⟨mkProjectile czero czero 100 100 0 ENEMY_LASER_SPEC, by simp, by decide, by simp⟩

/-- C4 counterexample: two PD shots both overlapping the same single enemy
bullet.  The first PD shot destroys the bullet and is consumed; the second
PD shot overlaps an enemy projectile of this frame yet survives the pass,
refuting "the point-defense shot itself is consumed in that same frame". -/
theorem pd_pass_cex :
    (mkProjectile czero czero 101 100 0 pdSpec).rect.collide
      (mkProjectile czero czero 100 100 0 ENEMY_LASER_SPEC).rect = true
    ∧ (pdPass [mkProjectile czero czero 100 100 0 pdSpec,
               mkProjectile czero czero 101 100 0 pdSpec]
          [mkProjectile czero czero 100 100 0 ENEMY_LASER_SPEC]).1 = []
    ∧ mkProjectile czero czero 101 100 0 pdSpec
      ∈ (pdPass [mkProjectile czero czero 100 100 0 pdSpec,
                 mkProjectile czero czero 101 100 0 pdSpec]
          [mkProjectile czero czero 100 100 0 ENEMY_LASER_SPEC]).2 := by
  have h1 : (mkProjectile czero czero 100 100 0 pdSpec).rect.collide
      (mkProjectile czero czero 100 100 0 ENEMY_LASER_SPEC).rect = true := by decide
  have h2 : (mkProjectile czero czero 101 100 0 pdSpec).rect.collide
      (mkProjectile czero czero 100 100 0 ENEMY_LASER_SPEC).rect = true := by decide
  refine ⟨h2, ?_, ?_⟩
  · simp [pdPass, h1, h2]
  · simp [pdPass, h1, h2]

-- C8 --------------------------------------------------------------------------

/-- Survivors of a bullets-versus-ship pass come from the incoming bullets. -/
theorem bulletPass_mem (r : Rect) : ∀ (l : List Proj) (hp : ℚ) (q : Proj),
    q ∈ (bulletPass r l hp).1 → q ∈ l
  | [], hp, q => by simp [bulletPass]
  | b :: rest, hp, q => by
      simp only [bulletPass]
      by_cases hc : r.collide b.rect
      · rw [if_pos hc]
        by_cases hbr : hp - b.damage ≤ 0
        · rw [if_pos hbr]
          exact fun h => List.mem_cons_of_mem _ h
        · rw [if_neg hbr]
          exact fun h => List.mem_cons_of_mem _ (bulletPass_mem r rest _ q h)
      · rw [if_neg hc]
        intro h
        rcases List.mem_cons.mp h with rfl | h2
        · exact List.mem_cons_self _ _
        · exact List.mem_cons_of_mem _ (bulletPass_mem r rest _ q h2)

/-- The ship's hp never increases through a bullets pass with nonnegative
bullet damages. -/
theorem bulletPass_hp_le (r : Rect) : ∀ (l : List Proj) (hp : ℚ),
    (∀ b ∈ l, 0 ≤ b.damage) → (bulletPass r l hp).2.1 ≤ hp
  | [], hp, _ => le_refl hp
  | b :: rest, hp, hd => by
      have hd0 : 0 ≤ b.damage := hd b (List.mem_cons_self _ _)
      have hdrest : ∀ b2 ∈ rest, 0 ≤ b2.damage := fun b2 h2 => hd b2 (List.mem_cons_of_mem _ h2)
      simp only [bulletPass]
      by_cases hc : r.collide b.rect
      · rw [if_pos hc]
        by_cases hbr : hp - b.damage ≤ 0
        · rw [if_pos hbr]
          show hp - b.damage ≤ hp
          linarith
        · rw [if_neg hbr]
          have := bulletPass_hp_le r rest (hp - b.damage) hdrest
          show (bulletPass r rest (hp - b.damage)).2.1 ≤ hp
          linarith
      · rw [if_neg hc]
        exact bulletPass_hp_le r rest hp hdrest

/-- Decomposition of a bullets pass over an append: the second part runs only
when the first did not break. -/
theorem bulletPass_append (r : Rect) : ∀ (l1 l2 : List Proj) (hp : ℚ),
    bulletPass r (l1 ++ l2) hp =
      if (bulletPass r l1 hp).2.2 then
        ((bulletPass r l1 hp).1 ++ l2, (bulletPass r l1 hp).2.1, true)
      else
        ((bulletPass r l1 hp).1 ++ (bulletPass r l2 (bulletPass r l1 hp).2.1).1,
          (bulletPass r l2 (bulletPass r l1 hp).2.1).2)
  | [], l2, hp => by simp [bulletPass]
  | b :: l1, l2, hp => by
      by_cases hc : r.collide b.rect
      · by_cases hbr : hp - b.damage ≤ 0
        · simp only [List.cons_append, bulletPass, if_pos hc, if_pos hbr, List.append_eq]
          simp
        · simp only [List.cons_append, bulletPass, if_pos hc, if_neg hbr, List.append_eq]
          rw [bulletPass_append r l1 l2 (hp - b.damage)]
      · simp only [List.cons_append, bulletPass, if_neg hc, List.append_eq]
        rw [bulletPass_append r l1 l2 hp]
        split <;> simp

/-- C8 (amended): a point-defence shot is an ordinary player bullet, so in
the player-bullets-versus-enemy pass — run before the point-defence block —
a PD shot (damage 99) whose box overlaps the enemy is killed and deals its
full 99 damage, provided the pass reaches it: no earlier player bullet may
already have broken the pass by reducing the enemy's hp to ≤ 0.  Under that
proviso the frame's collision section leaves the enemy hp at least 99 below
its starting value and the PD shot is gone from the player's bullet group
(in particular it is not in the point-defence list either). -/
theorem pd_shot_hits_enemy (eR pR : Rect) (pre post eb : List Proj) (pd : Proj)
    (ehp php : ℚ)
    (hcol : eR.collide pd.rect = true)
    (hnb : (bulletPass eR pre ehp).2.2 = false)
    (hpre : pd ∉ pre) (hpost : pd ∉ post)
    (hdmg : ∀ b ∈ pre ++ pd :: post, 0 ≤ b.damage)
    (hd99 : pd.damage = 99) :
    pd ∉ (collisions eR pR (pre ++ pd :: post) eb ehp php).playerBullets
    ∧ (collisions eR pR (pre ++ pd :: post) eb ehp php).enemyHp ≤ ehp - 99 := by
  have hdpre : ∀ b ∈ pre, 0 ≤ b.damage := fun b h => hdmg b (List.mem_append_left _ h)
  have hdpost : ∀ b ∈ post, 0 ≤ b.damage := fun b h =>
    hdmg b (List.mem_append_right _ (List.mem_cons_of_mem _ h))
  have happ := bulletPass_append eR pre (pd :: post) ehp
  rw [hnb] at happ
  rw [if_neg (by simp)] at happ
  have hp1le : (bulletPass eR pre ehp).2.1 ≤ ehp := bulletPass_hp_le eR pre ehp hdpre
  have hmid : bulletPass eR (pd :: post) ((bulletPass eR pre ehp).2.1)
      = if (bulletPass eR pre ehp).2.1 - pd.damage ≤ 0 then
          (post, (bulletPass eR pre ehp).2.1 - pd.damage, true)
        else ((bulletPass eR post ((bulletPass eR pre ehp).2.1 - pd.damage)).1,
          (bulletPass eR post ((bulletPass eR pre ehp).2.1 - pd.damage)).2) := by
    simp only [bulletPass, if_pos hcol]
  have hnotin : pd ∉ (bulletPass eR (pre ++ pd :: post) ehp).1 := by
    rw [happ]
    intro hmem
    rcases List.mem_append.mp hmem with h | h
    · exact hpre (bulletPass_mem eR pre ehp pd h)
    · rw [hmid] at h
      by_cases hbr : (bulletPass eR pre ehp).2.1 - pd.damage ≤ 0
      · rw [if_pos hbr] at h
        exact hpost h
      · rw [if_neg hbr] at h
        exact hpost (bulletPass_mem eR post _ pd h)
  have hhp : (bulletPass eR (pre ++ pd :: post) ehp).2.1 ≤ ehp - 99 := by
    rw [happ]
    show (bulletPass eR (pd :: post) ((bulletPass eR pre ehp).2.1)).2.1 ≤ ehp - 99
    rw [hmid]
    by_cases hbr : (bulletPass eR pre ehp).2.1 - pd.damage ≤ 0
    · rw [if_pos hbr]
      show (bulletPass eR pre ehp).2.1 - pd.damage ≤ ehp - 99
      rw [hd99]
      linarith
    · rw [if_neg hbr]
      have := bulletPass_hp_le eR post ((bulletPass eR pre ehp).2.1 - pd.damage) hdpost
      show (bulletPass eR post ((bulletPass eR pre ehp).2.1 - pd.damage)).2.1 ≤ ehp - 99
      rw [hd99] at this ⊢
      linarith
  constructor
  · show pd ∉ (bulletPass eR (pre ++ pd :: post) ehp).1.filter _
    intro hmem
    exact hnotin (List.mem_filter.mp hmem).1
  · exact hhp

/-- Witness for C8 (amended): a lone PD shot overlapping the enemy is
removed by the player-bullet pass and the enemy hp drops by its 99 damage. -/
theorem pd_shot_hits_enemy_witness :
    mkProjectile czero czero 12 12 0 pdSpec
      ∉ (collisions (mkEnemy 12 12).rect ⟨400, 400, 26, 26⟩
          ([] ++ mkProjectile czero czero 12 12 0 pdSpec :: []) [] 120 150).playerBullets
    ∧ (collisions (mkEnemy 12 12).rect ⟨400, 400, 26, 26⟩
          ([] ++ mkProjectile czero czero 12 12 0 pdSpec :: []) [] 120 150).enemyHp
      ≤ 120 - 99 :=
  pd_shot_hits_enemy (mkEnemy 12 12).rect ⟨400, 400, 26, 26⟩ [] []
    [] (mkProjectile czero czero 12 12 0 pdSpec) 120 150
    (by decide) rfl (by simp) (by simp)
    (by
      intro b hb
      simp at hb
      subst hb
      norm_num [mkProjectile, pdSpec])
    (by norm_num [mkProjectile, pdSpec])

/-- C8 counterexample: the enemy at hp 5 is destroyed by an earlier laser
bolt in the same pass (hp 5 − 12 ≤ 0 breaks the loop), so an overlapping PD
shot later in the group is never tested: the frame ends with the PD shot
still in the player's bullet group and the enemy hp reduced by 12 only, not
by 99 — refuting the unconditional "health is reduced by 99 and the shot is
removed". -/
theorem pd_shot_hits_enemy_cex :
    (mkEnemy 12 12).rect.collide (mkProjectile czero czero 12 12 0 pdSpec).rect = true
    ∧ (collisions (mkEnemy 12 12).rect ⟨400, 400, 26, 26⟩
        [mkProjectile czero czero 10 10 0 LASER, mkProjectile czero czero 12 12 0 pdSpec]
        [] 5 150).playerBullets = [mkProjectile czero czero 12 12 0 pdSpec]
    ∧ (collisions (mkEnemy 12 12).rect ⟨400, 400, 26, 26⟩
        [mkProjectile czero czero 10 10 0 LASER, mkProjectile czero czero 12 12 0 pdSpec]
        [] 5 150).enemyHp = 5 - 12
    ∧ ¬ ((5 : ℚ) - 12 ≤ 5 - 99) := by
  have h1 : (mkEnemy 12 12).rect.collide (mkProjectile czero czero 10 10 0 LASER).rect
      = true := by decide
  have h2 : (mkEnemy 12 12).rect.collide (mkProjectile czero czero 12 12 0 pdSpec).rect
      = true := by decide
  have hbr : ((5 : ℚ) - (mkProjectile czero czero 10 10 0 LASER).damage ≤ 0) := by
    norm_num [mkProjectile, LASER]
  refine ⟨h2, ?_, ?_, by norm_num⟩
  · simp only [collisions, bulletPass, if_pos h1, if_pos hbr, pdPass]
    norm_num [mkProjectile, pdSpec, List.filter]
  · simp only [collisions, bulletPass, if_pos h1, if_pos hbr]
    norm_num [mkProjectile, LASER]
